import Mathlib

/-!
Shallow embedding of the acertmgr rfc2136 (nsupdate) DNS-01 challenge handler,
translated from src/acertmgr/modes/dns/nsupdate.py.

External collaborators (the dnspython library, the socket and ipaddress
modules, and the filesystem) are modelled as an explicit DnsWorld record of
oracles; every network interaction of the handler is additionally recorded in
a trace of NetEvent values so that claims about which queries are issued (and
in which order) can be stated and proved.

Python exceptions are modelled with the Except monad over the PyExc type;
Python truthiness of the possible return values of _check_txt_record_value
(True, False, and the implicit None of falling off the end of the function)
is modelled by the PyRet type and its truthy projection.
-/

namespace Nsupdate

/-- Python exception values as they can escape the embedded functions.
ioError models IOError/OSError, valueError models ValueError and
socket.gaierror, exception models a plain Exception(msg). -/
inductive PyExc where
  | ioError (msg : String)
  | valueError (msg : String)
  | exception (msg : String)
  deriving DecidableEq, Repr

/-- An absolute DNS name as its list of labels, most specific first;
the root is the empty list.  dns.name.from_text("a.b.example.com.") is
modelled as the label list a, b, example, com. -/
abbrev Domain := List String

/-- dns.name.Name.to_text for an absolute name: labels joined by dots with a
trailing dot; the root is the single dot. -/
def domainToText (d : Domain) : String :=
  String.intercalate "." d ++ "."

/-- Splitting a character list at every occurrence of a separator
character (the behaviour of Python str.split with a one-character
separator, and of String.splitOn for the separators used here). -/
def splitOnChar (sep : Char) : List Char → List (List Char)
  | [] => [[]]
  | c :: rest =>
    if c == sep then [] :: splitOnChar sep rest
    else
      match splitOnChar sep rest with
      | [] => [[c]]
      | g :: gs => (c :: g) :: gs

/-- dns.name.from_text (the handler always ends up with an absolute name:
from_text already yields one, and _get_soa concatenates the root otherwise).
Empty labels (the trailing dot) are dropped. -/
def domainFromText (s : String) : Domain :=
  ((splitOnChar '.' s.data).map String.mk).filter (fun l => l ≠ "")

/-- Python str.isspace characters relevant to str.strip(). -/
def isPySpace (c : Char) : Bool :=
  c == ' ' || c == '\t' || c == '\n' || c == '\r' || c == '\x0b' || c == '\x0c'

/-- Python str.strip() with no argument: drop leading and trailing whitespace. -/
def pyStrip (s : String) : String :=
  String.mk (List.reverse (List.dropWhile isPySpace (List.reverse (List.dropWhile isPySpace s.data))))

/-- Python str.strip(c) for the quote character, as used on TXT rdata text. -/
def stripQuotes (s : String) : String :=
  String.mk (List.reverse (List.dropWhile (fun c => c == '"') (List.reverse (List.dropWhile (fun c => c == '"') s.data))))

/-- Python s.split(' ')[0]: the split never returns an empty list. -/
def firstToken (s : String) : String :=
  String.mk ((splitOnChar ' ' s.data).headD [])

/-! ## The literal-address regular expressions (REGEX_IP4 / REGEX_IP6)

REGEX_IP4 and REGEX_IP6 from the source are anchored with both a caret and a
dollar, so re.search against them is a full-string match; they are embedded
as executable full-string matchers.  REGEX_IP6 is an alternation of twelve
branches, embedded with a small nondeterministic matcher over character
lists (a matcher maps an input to the list of possible remainders). -/

/-- A nondeterministic regular-pattern matcher: input suffix to possible
remainders after a match of the pattern. -/
abbrev RM := List Char → List (List Char)

/-- The empty pattern. -/
def mEmpty : RM := fun cs => [cs]

/-- A single character satisfying a class predicate. -/
def mCh (p : Char → Bool) : RM := fun cs =>
  match cs with
  | [] => []
  | c :: r => if p c then [r] else []

/-- Does the second list start with the first one? -/
def startsWithChars : List Char → List Char → Bool
  | [], _ => true
  | _ :: _, [] => false
  | a :: as, b :: bs => a == b && startsWithChars as bs

/-- A literal character sequence. -/
def mLit (t : List Char) : RM := fun cs =>
  if startsWithChars t cs then [cs.drop t.length] else []

/-- Concatenation of two patterns. -/
def mSeq (a b : RM) : RM := fun cs => (a cs).flatMap b

/-- Alternation of a list of patterns. -/
def mAlts (ms : List RM) : RM := fun cs => ms.flatMap (fun m => m cs)

/-- Exactly n repetitions of a pattern. -/
def mRepExact (a : RM) : Nat → RM
  | 0 => mEmpty
  | n + 1 => mSeq a (mRepExact a n)

/-- Between lo and hi repetitions of a pattern. -/
def mRepRange (a : RM) (lo hi : Nat) : RM := fun cs =>
  (List.range (hi + 1 - lo)).flatMap (fun k => mRepExact a (lo + k) cs)

/-- One or more characters of a class, all possible consumed amounts. -/
def many1Aux (p : Char → Bool) : List Char → List (List Char)
  | [] => []
  | c :: r => if p c then r :: many1Aux p r else []

/-- The plus quantifier over a character class. -/
def mMany1 (p : Char → Bool) : RM := fun cs => many1Aux p cs

/-- The character class of the hexadecimal digits 0-9a-fA-F. -/
def isHexChar (c : Char) : Bool :=
  c.isDigit || ('a' ≤ c && c ≤ 'f') || ('A' ≤ c && c ≤ 'F')

/-- REGEX_IP4 full-string match: four runs of one to three decimal digits
separated by dots (exactly the anchored source pattern). -/
def ip4Octet (l : List Char) : Bool :=
  decide (1 ≤ l.length) && decide (l.length ≤ 3) && l.all Char.isDigit

/-- Full-string match of REGEX_IP4. -/
def regexIp4Match (s : String) : Bool :=
  match splitOnChar '.' s.data with
  | [a, b, c, d] => ip4Octet a && ip4Octet b && ip4Octet c && ip4Octet d
  | _ => false

/-- One to four hexadecimal digits. -/
def mH : RM := mRepRange (mCh isHexChar) 1 4

/-- A hex group followed by a colon. -/
def mHColon : RM := mSeq mH (mCh (fun c => c == ':'))

/-- A colon followed by a hex group. -/
def mColonH : RM := mSeq (mCh (fun c => c == ':')) mH

/-- The dotted-quad octet alternation of REGEX_IP6:
25[0-5], or an optional (2[0-4] or optional 1 then digit) then a digit. -/
def v4OctetM : RM :=
  mAlts
    [ mSeq (mLit ['2', '5']) (mCh (fun c => '0' ≤ c && c ≤ '5')),
      mSeq (mRepRange (mAlts
              [ mSeq (mCh (fun c => c == '2')) (mCh (fun c => '0' ≤ c && c ≤ '4')),
                mSeq (mRepRange (mCh (fun c => c == '1')) 0 1) (mCh Char.isDigit) ]) 0 1)
           (mCh Char.isDigit) ]

/-- The embedded IPv4 tail of REGEX_IP6: three octets each followed by a dot,
then a final octet. -/
def v4M : RM := mSeq (mRepExact (mSeq v4OctetM (mCh (fun c => c == '.'))) 3) v4OctetM

/-- The twelve alternation branches of REGEX_IP6, in source order. -/
def ip6M : RM :=
  mAlts
    [ mSeq (mRepExact mHColon 7) mH,
      mSeq (mRepRange mHColon 1 7) (mCh (fun c => c == ':')),
      mSeq (mRepRange mHColon 1 6) (mSeq (mCh (fun c => c == ':')) mH),
      mSeq (mRepRange mHColon 1 5) (mRepRange mColonH 1 2),
      mSeq (mRepRange mHColon 1 4) (mRepRange mColonH 1 3),
      mSeq (mRepRange mHColon 1 3) (mRepRange mColonH 1 4),
      mSeq (mRepRange mHColon 1 2) (mRepRange mColonH 1 5),
      mSeq mHColon (mRepRange mColonH 1 6),
      mSeq (mCh (fun c => c == ':')) (mAlts [mRepRange mColonH 1 7, mCh (fun c => c == ':')]),
      mSeq (mLit ['f', 'e', '8', '0', ':'])
        (mSeq (mRepRange (mSeq (mCh (fun c => c == ':')) (mRepRange (mCh isHexChar) 0 4)) 0 4)
          (mSeq (mCh (fun c => c == '%')) (mMany1 Char.isAlphanum))),
      mSeq (mLit [':', ':'])
        (mSeq (mRepRange (mSeq (mLit ['f', 'f', 'f', 'f'])
                 (mSeq (mRepRange (mSeq (mCh (fun c => c == ':')) (mRepRange (mCh (fun c => c == '0')) 1 4)) 0 1)
                   (mCh (fun c => c == ':')))) 0 1)
          v4M),
      mSeq (mRepRange mHColon 1 4) (mSeq (mCh (fun c => c == ':')) v4M) ]

/-- Full-string match of REGEX_IP6: some branch consumes the whole input. -/
def regexIp6Match (s : String) : Bool :=
  (ip6M s.data).any (fun r => r.isEmpty)

/-! ## The key-file pattern matches of _read_tsigkey

_read_tsigkey extracts the key name, the per-key block, the algorithm and
the secret with four re.search calls (all with re.DOTALL).  Each of the four
concrete patterns is embedded as an executable leftmost-match search with
the lazy/greedy preferences of the Python engine for that pattern. -/

/-- Leftmost match: try a position matcher on every suffix, left to right. -/
def searchFirst (f : List Char → Option α) : List Char → Option α
  | [] => none
  | c :: rest =>
    match f (c :: rest) with
    | some r => some r
    | none => searchFirst f rest

/-- Does the needle occur as a contiguous substring of the haystack? -/
def containsSub (needle : List Char) : List Char → Bool
  | [] => startsWithChars needle []
  | c :: rest => startsWithChars needle (c :: rest) || containsSub needle rest

/-- The character class of the key-name group: anything but a quote, an
opening brace or a space. -/
def isKeyNameChar (c : Char) : Bool :=
  !(c == '"') && !(c == '\x7b') && !(c == ' ')

/-- After the captured name, the pattern requires an optional quote, a space
and an opening brace, and then (DOTALL) anything up to a closing brace
followed by a semicolon somewhere later. -/
def keyNameTailAfterQuote (cs : List Char) : Bool :=
  match cs with
  | ' ' :: '\x7b' :: r => containsSub ['\x7d', ';'] r
  | _ => false

/-- Optional closing quote before the space-brace tail (the quote branch is
preferred by the engine; when the next character is not a quote only the
bare branch can apply). -/
def keyNameTail (cs : List Char) : Bool :=
  match cs with
  | '"' :: r => keyNameTailAfterQuote r || keyNameTailAfterQuote cs
  | _ => keyNameTailAfterQuote cs

/-- The lazy group of the key-name pattern: the shortest nonempty run of
name characters after which the tail matches. -/
def keyNameLazyGroup : List Char → Option (List Char)
  | [] => none
  | c :: rest =>
    if isKeyNameChar c then
      if keyNameTail rest then some [c]
      else (keyNameLazyGroup rest).map (fun g => c :: g)
    else none

/-- A match attempt of the first _read_tsigkey pattern at one position:
the literal word key, a space, an optional opening quote, then the lazy
name group. -/
def keyNameAt (cs : List Char) : Option String :=
  match cs with
  | 'k' :: 'e' :: 'y' :: ' ' :: rest =>
    (keyNameLazyGroup (match rest with | '"' :: r => r | _ => rest)).map String.mk
  | _ => none

/-- re.search of the pattern extracting the first key block name
(group 1 of the first pattern in _read_tsigkey). -/
def reSearchKeyName (s : String) : Option String :=
  searchFirst keyNameAt s.data

/-- The lazy group running up to the first closing brace followed by a
semicolon (the block-body pattern). -/
def lazyUpToBraceSemi : List Char → Option (List Char)
  | '\x7d' :: ';' :: _ => some []
  | c :: r => (lazyUpToBraceSemi r).map (fun g => c :: g)
  | [] => none

/-- After the literal key and space: optional quote, the requested name
spliced literally, optional quote, space, opening brace, then the lazy body
group.  The quoted branch is preferred, and when the input starts with a
quote the unquoted branch can only apply to a name that itself starts with
a quote. -/
def keyBlockAfterKey (name : List Char) (rest : List Char) : Option String :=
  let tryFrom : List Char → Option String := fun r =>
    if startsWithChars name r then
      match r.drop name.length with
      | '"' :: ' ' :: '\x7b' :: rr => (lazyUpToBraceSemi rr).map String.mk
      | ' ' :: '\x7b' :: rr => (lazyUpToBraceSemi rr).map String.mk
      | _ => none
    else none
  match rest with
  | '"' :: r =>
    (match tryFrom r with
     | some g => some g
     | none => tryFrom rest)
  | _ => tryFrom rest

/-- A match attempt of the block pattern at one position. -/
def keyBlockAt (name : List Char) (cs : List Char) : Option String :=
  match cs with
  | 'k' :: 'e' :: 'y' :: ' ' :: rest => keyBlockAfterKey name rest
  | _ => none

/-- re.search of the pattern extracting the body of the block of the given
key name (group 1 of the second pattern in _read_tsigkey; the name is
spliced into the pattern literally, so names are assumed free of regex
metacharacters, as every real key name is). -/
def reSearchKeyBlock (name : String) (s : String) : Option String :=
  searchFirst (keyBlockAt name.data) s.data

/-- The algorithm character class a-zA-Z0-9_- of the third pattern. -/
def isAlgChar (c : Char) : Bool :=
  c.isAlpha || c.isDigit || c == '_' || c == '-'

/-- The lazy algorithm group: algorithm characters up to the first
semicolon; a non-class character before the semicolon kills the match at
this position. -/
def algLazyGroup : List Char → Option (List Char)
  | [] => none
  | c :: rest =>
    if isAlgChar c then
      match rest with
      | ';' :: _ => some [c]
      | _ => (algLazyGroup rest).map (fun g => c :: g)
    else none

/-- A match attempt of the algorithm pattern at one position. -/
def algorithmAt (cs : List Char) : Option String :=
  match cs with
  | 'a' :: 'l' :: 'g' :: 'o' :: 'r' :: 'i' :: 't' :: 'h' :: 'm' :: ' ' :: rest =>
    (algLazyGroup rest).map String.mk
  | _ => none

/-- re.search of the pattern extracting the algorithm from a key block
body (group 1 of the third pattern in _read_tsigkey). -/
def reSearchAlgorithm (s : String) : Option String :=
  searchFirst algorithmAt s.data

/-- The lazy group running up to the next quote (the secret pattern). -/
def lazyUpToQuote : List Char → Option (List Char)
  | '"' :: _ => some []
  | c :: r => (lazyUpToQuote r).map (fun g => c :: g)
  | [] => none

/-- A match attempt of the secret pattern at one position. -/
def secretAt (cs : List Char) : Option String :=
  match cs with
  | 's' :: 'e' :: 'c' :: 'r' :: 'e' :: 't' :: ' ' :: '"' :: rest =>
    (lazyUpToQuote rest).map String.mk
  | _ => none

/-- re.search of the pattern extracting the secret from a key block body
(group 1 of the fourth pattern in _read_tsigkey). -/
def reSearchSecret (s : String) : Option String :=
  searchFirst secretAt s.data

/-! ## The world of external collaborators and the event trace -/

/-- dns.rdatatype.SOA. -/
def SOA : Nat := 6

/-- dns.rdatatype.TXT. -/
def TXT : Nat := 16

/-- dns.rcode.NOERROR. -/
def NOERROR : Nat := 0

/-- One resource record item of an answer rrset, with its rdatatype and,
for SOA records, the textual form of its mname field (the mname field is
only ever read on items whose rdatatype is SOA). -/
structure RRItem where
  rdtype : Nat
  mname : String
  deriving DecidableEq, Repr

/-- The outcome of dns.query.udp for one SOA query: a timeout
(dns.exception.Timeout), some other dns.exception.DNSException, or a
response with an rcode and an answer section (a list of rrsets). -/
inductive SoaQueryResult where
  | timeout
  | dnsError
  | response (rcode : Nat) (answer : List (List RRItem))
  deriving DecidableEq, Repr

/-- The outcome of dns.query.udp or dns.query.tcp for one TXT query: a
dns.exception.DNSException, or a response whose answer section is a list of
rrsets of TXT rdata in their textual form. -/
inductive TxtQueryResult where
  | dnsError
  | response (answer : List (List String))
  deriving DecidableEq, Repr

/-- One observable network interaction of the handler. -/
inductive NetEvent where
  | soaQ (d : Domain) (nameserver : String)
  | txtQ (domain : String) (nameserverip : String) (useTcp : Bool)
  | addrinfo (host : String)
  | updateSend (nameserverip : String)
  | baseVerify (domain : String)
  deriving DecidableEq, Repr

/-- Is the event a zone-resolution or authoritative query (anything other
than the base handler verification through the ordinary resolvers)? -/
def NetEvent.isAuthQuery : NetEvent → Bool
  | .baseVerify _ => false
  | _ => true

/-- The external world: the dnspython library, socket, ipaddress and the
filesystem, modelled as oracles.  soaQuery takes the queried name and the
nameserver, txtQuery takes the queried name, the nameserver ip and the tcp
flag.  readFile returns none when opening the file raises an IOError.
ipParse models str(ipaddress.ip_address(s)), none meaning ValueError.
getaddrinfo models socket.getaddrinfo(host, port) flattened to the address
of each returned entry, an error meaning socket.gaierror.  baseVerify is
modelled from the spec: it is the inherited
DNSChallengeHandler.verify_dns_record of the abstract base class, whose
code is not part of this repository snapshot; per the spec it is the
broader verification policy that is still consulted after the local
authoritative check, and it answers true or false per call. -/
structure DnsWorld where
  defaultResolvers : List String
  soaQuery : Domain → String → SoaQueryResult
  txtQuery : String → String → Bool → TxtQueryResult
  readFile : String → Option String
  ipParse : String → Option String
  getaddrinfo : String → Nat → Except PyExc (List String)
  baseVerify : String → String → Bool

/-! ## _read_tsigkey -/

/-- The default TSIG algorithm constant DEFAULT_KEY_ALGORITHM. -/
def DEFAULT_KEY_ALGORITHM : String := "HMAC-MD5.SIG-ALG.REG.INT"

/-- A keyring as built by dns.tsigkeyring.from_text: the name/secret pairs
handed to it.  The handler passes config.get results directly, so entries
are optional strings (Python None is modelled as Option.none). -/
abbrev TsigKeyring := List (Option String × Option String)

/-- The Exception raised when the key file cannot be opened. -/
def keyfileOpenError (tsigKeyFile : String) : PyExc :=
  .exception ("A problem was encountered opening your keyfile, " ++ tsigKeyFile ++ ".")

/-- The Exception raised when a required group cannot be extracted from the
key file content (the AttributeError branch of _read_tsigkey). -/
def decipherError : PyExc :=
  .exception "Unable to decipher the keyname and secret from your keyfile."

/-- Python truthiness of the optional key_name argument: None and the empty
string are falsy. -/
def pyTruthyOptStr : Option String → Bool
  | none => false
  | some s => !(s == "")

/-- ChallengeHandler._read_tsigkey.  The file is read through the world; a
failed open becomes the keyfile Exception, a failed group extraction (the
AttributeError of calling group on a None match) becomes the decipher
Exception.  Mirrors the source line by line, including the unreachable
defaulting of a falsy algorithm: a successful algorithm match is never
empty, so that branch keeps algorithm unchanged whenever it is reached. -/
def read_tsigkey (w : DnsWorld) (tsigKeyFile : String) (keyName : Option String) :
    Except PyExc (TsigKeyring × String) :=
  match w.readFile tsigKeyFile with
  | none => .error (keyfileOpenError tsigKeyFile)
  | some keyStruct =>
    match (if pyTruthyOptStr keyName then keyName else reSearchKeyName keyStruct) with
    | none => .error decipherError
    | some kname =>
      match reSearchKeyBlock kname keyStruct with
      | none => .error decipherError
      | some keyData =>
        match reSearchAlgorithm keyData with
        | none => .error decipherError
        | some algorithm =>
          match reSearchSecret keyData with
          | none => .error decipherError
          | some tsigSecret =>
            let keyring : TsigKeyring := [(some kname, some tsigSecret)]
            let algorithm := if algorithm == "" then DEFAULT_KEY_ALGORITHM else algorithm
            .ok (keyring, algorithm)

/-! ## _lookup_dns_server -/

/-- ChallengeHandler._lookup_dns_server.  When one of the two literal
regexes matches the stripped input and ipaddress.ip_address accepts the
raw input, the canonical address text is returned with no resolution
query; a ValueError of ip_address is swallowed and, as for a non-matching
input, socket.getaddrinfo(host, 53) is consulted and the first returned
address used, an empty result raising ValueError. -/
def lookup_dns_server (w : DnsWorld) (domainOrIp : String) :
    Except PyExc String × List NetEvent :=
  let literal : Option String :=
    if regexIp4Match (pyStrip domainOrIp) || regexIp6Match (pyStrip domainOrIp) then
      w.ipParse domainOrIp
    else none
  match literal with
  | some ip => (.ok ip, [])
  | none =>
    match w.getaddrinfo domainOrIp 53 with
    | .error e => (.error e, [.addrinfo domainOrIp])
    | .ok [] => (.error (.valueError ("Could not lookup dns ip for " ++ domainOrIp)), [.addrinfo domainOrIp])
    | .ok (a :: _) => (.ok a, [.addrinfo domainOrIp])

/-! ## _get_soa -/

/-- The first item of rdatatype SOA in the answer section, scanning rrsets
and items in order exactly as the two nested for loops do. -/
def rrsetItems : List (List RRItem) → List RRItem
  | [] => []
  | r :: rest => r ++ rrsetItems rest

/-- The item the nested loops of _get_soa return on, if any. -/
def findSoaItem (answer : List (List RRItem)) : Option RRItem :=
  (rrsetItems answer).find? (fun item => item.rdtype == SOA)

/-- The SOA item one query yields, if the query produced a NOERROR response
containing one (the condition under which the walk returns at a label). -/
def soaAnswerItem : SoaQueryResult → Option RRItem
  | .response rcode answer => if rcode == NOERROR then findSoaItem answer else none
  | _ => none

/-- The inner for loop of _get_soa over the nameservers at one label:
a timeout continues with the next nameserver, any other DNSException or a
non-NOERROR response breaks the loop, and a NOERROR response either
returns the zone and mname-derived nameserver at the first SOA item or,
when it contains no SOA item, falls through to the next nameserver. -/
def soaTryNS (w : DnsWorld) (d : Domain) : List String → Option (String × String) × List NetEvent
  | [] => (none, [])
  | ns :: rest =>
    match w.soaQuery d ns with
    | .timeout =>
      let r := soaTryNS w d rest
      (r.1, .soaQ d ns :: r.2)
    | .dnsError => (none, [.soaQ d ns])
    | .response rcode answer =>
      if rcode == NOERROR then
        match findSoaItem answer with
        | some item => (some (domainToText d, firstToken item.mname), [.soaQ d ns])
        | none =>
          let r := soaTryNS w d rest
          (r.1, .soaQ d ns :: r.2)
      else (none, [.soaQ d ns])

/-- The while loop of _get_soa: it runs while the parent of the current
name is not the root, so a name of one label is not queried and raises the
not-found Exception, and calling parent on the root itself would raise
dns.name.NoParent. -/
def getSoaLoop (w : DnsWorld) (nss : List String) : Domain → Except PyExc (String × String) × List NetEvent
  | [] => (.error (.exception "dns.name.NoParent"), [])
  | l :: rest =>
    if rest.isEmpty then
      (.error (.exception ("Could not find Zone SOA for \"" ++ domainToText (l :: rest) ++ "\"")), [])
    else
      match soaTryNS w (l :: rest) nss with
      | (some zn, t) => (.ok zn, t)
      | (none, t) =>
        let r := getSoaLoop w nss rest
        (r.1, t ++ r.2)

/-- ChallengeHandler._get_soa.  With an explicit nameserver the walk uses
only it; otherwise it uses the system resolvers of
dns.resolver.get_default_resolver().nameservers. -/
def get_soa (w : DnsWorld) (domain : String) (nameserver : Option String) :
    Except PyExc (String × String) × List NetEvent :=
  let nss := match nameserver with
    | some ns => [ns]
    | none => w.defaultResolvers
  getSoaLoop w nss (domainFromText domain)

/-! ## The handler instance -/

/-- The configuration dictionary: an association list of string keys and
values, first binding wins (config.get). -/
abbrev Config := List (String × String)

/-- config.get(key) as an optional value. -/
def cfgGet (config : Config) (key : String) : Option String :=
  (config.find? (fun kv => kv.1 == key)).map (fun kv => kv.2)

/-- The per-instance state ChallengeHandler.__init__ establishes (the base
class fields are not used by the embedded operations and are omitted). -/
structure Handler where
  keyring : TsigKeyring
  keyalgorithm : String
  nsupdate_server : Option String
  nsupdate_verify : Bool
  nsupdate_verified : Bool
  deriving DecidableEq, Repr

/-- The keyring/algorithm branch of ChallengeHandler.__init__: with an
nsupdate_keyfile key present they come from _read_tsigkey (whose Exception
propagates); otherwise the keyring is built inline from nsupdate_keyname
and nsupdate_keyvalue and the algorithm from nsupdate_keyalgorithm with
the MD5 default. -/
def initKeyMaterial (w : DnsWorld) (config : Config) : Except PyExc (TsigKeyring × String) :=
  match cfgGet config "nsupdate_keyfile" with
  | some keyfile => read_tsigkey w keyfile (cfgGet config "nsupdate_keyname")
  | none =>
    .ok ([(cfgGet config "nsupdate_keyname", cfgGet config "nsupdate_keyvalue")],
         (cfgGet config "nsupdate_keyalgorithm").getD DEFAULT_KEY_ALGORITHM)

/-- ChallengeHandler.__init__.  nsupdate_verify is true exactly when the
configured value, defaulted to the string true, equals the string true;
and the verified flag starts false. -/
def challengeHandlerInit (w : DnsWorld) (config : Config) : Except PyExc Handler :=
  match initKeyMaterial w config with
  | .error e => .error e
  | .ok (keyring, keyalgorithm) =>
    .ok { keyring := keyring,
          keyalgorithm := keyalgorithm,
          nsupdate_server := cfgGet config "nsupdate_server",
          nsupdate_verify := ((cfgGet config "nsupdate_verify").getD "true") == "true",
          nsupdate_verified := false }

/-- ChallengeHandler._determine_zone_and_nameserverip.  With a configured
(truthy) update server its address is resolved first and the SOA walk is
pinned to it; otherwise the walk runs against the system resolvers and the
mname-derived nameserver is then resolved to an address. -/
def determine_zone_and_nameserverip (w : DnsWorld) (h : Handler) (domain : String) :
    Except PyExc (String × String) × List NetEvent :=
  match h.nsupdate_server with
  | some nameserver =>
    match lookup_dns_server w nameserver with
    | (.error e, t) => (.error e, t)
    | (.ok nameserverip, t) =>
      match get_soa w domain (some nameserverip) with
      | (.error e, t2) => (.error e, t ++ t2)
      | (.ok (zone, _), t2) => (.ok (zone, nameserverip), t ++ t2)
  | none =>
    match get_soa w domain none with
    | (.error e, t) => (.error e, t)
    | (.ok (zone, nameserver), t) =>
      match lookup_dns_server w nameserver with
      | (.error e, t2) => (.error e, t ++ t2)
      | (.ok nameserverip, t2) => (.ok (zone, nameserverip), t ++ t2)

/-! ## _check_txt_record_value -/

/-- The three values the Python _check_txt_record_value can produce: True
on a match, False from the exception handler, and the implicit None of
falling off the end when no answer matches. -/
inductive PyRet where
  | pyTrue
  | pyFalse
  | pyNone
  deriving DecidableEq, Repr

/-- Python truthiness of the returned value (the caller only ever uses the
result in a boolean position). -/
def PyRet.truthy : PyRet → Bool
  | .pyTrue => true
  | _ => false

/-- ChallengeHandler._check_txt_record_value.  The query runs over TCP or
UDP as instructed; any dns.exception.DNSException is swallowed into False;
a response is scanned rrset by rrset, item by item, returning True at the
first item whose quote-stripped text equals the expected value, and
falling off the end (None) otherwise. -/
def check_txt_record_value (w : DnsWorld) (domain txtvalue nameserverip : String)
    (useTcp : Bool) : PyRet × List NetEvent :=
  match w.txtQuery domain nameserverip useTcp with
  | .dnsError => (.pyFalse, [.txtQ domain nameserverip useTcp])
  | .response answer =>
    if answer.any (fun rrset => rrset.any (fun a => stripQuotes a == txtvalue)) then
      (.pyTrue, [.txtQ domain nameserverip useTcp])
    else
      (.pyNone, [.txtQ domain nameserverip useTcp])

/-! ## The dynamic update messages -/

/-- One record action of a dynamic-update message.  deleteRecord carries
the specific rdata (the dns.update.Update.delete overload the source uses,
passing dns.rdata.from_text); deleteRRset would be the owner-wide TXT
deletion the source does not use. -/
inductive UpdateOp where
  | addRecord (owner : String) (ttl : Nat) (rdtype : Nat) (value : String)
  | deleteRecord (owner : String) (rdtype : Nat) (value : String)
  | deleteRRset (owner : String) (rdtype : Nat)
  deriving DecidableEq, Repr

/-- A dns.update.Update message: the zone it is scoped to, the signing key
material, and its accumulated record actions in order. -/
structure UpdateMessage where
  zone : String
  keyring : TsigKeyring
  keyalgorithm : String
  ops : List UpdateOp
  deriving DecidableEq, Repr

/-- dns.update.Update(zone, keyring, keyalgorithm). -/
def updateNew (zone : String) (keyring : TsigKeyring) (keyalgorithm : String) : UpdateMessage :=
  { zone := zone, keyring := keyring, keyalgorithm := keyalgorithm, ops := [] }

/-- update.add(owner, ttl, TXT, value). -/
def UpdateMessage.addOp (u : UpdateMessage) (owner : String) (ttl : Nat) (rdtype : Nat)
    (value : String) : UpdateMessage :=
  { u with ops := u.ops ++ [.addRecord owner ttl rdtype value] }

/-- update.delete(owner, rdata): the record-specific deletion overload. -/
def UpdateMessage.deleteOp (u : UpdateMessage) (owner : String) (rdtype : Nat)
    (value : String) : UpdateMessage :=
  { u with ops := u.ops ++ [.deleteRecord owner rdtype value] }

/-- Modelled from the spec: the server-side application of a dynamic-update
message to the TXT record set of a zone (section 4.3: adding a duplicate
record is a no-op, a record-specific delete removes exactly that owner and
value, an owner-wide delete would remove every TXT record of the owner).
The server itself is an external collaborator, not code of this
repository. -/
def applyOp (rs : List (String × String)) : UpdateOp → List (String × String)
  | .addRecord owner _ _ value => if (owner, value) ∈ rs then rs else rs ++ [(owner, value)]
  | .deleteRecord owner _ value => rs.filter (fun r => !(r.1 == owner && r.2 == value))
  | .deleteRRset owner _ => rs.filter (fun r => !(r.1 == owner))

/-- Modelled from the spec: applying every action of a message in order. -/
def applyOps (ops : List UpdateOp) (rs : List (String × String)) : List (String × String) :=
  ops.foldl applyOp rs

/-- ChallengeHandler.remove_dns_record: resolve zone and nameserver ip,
build the signed update containing the one record-specific delete, and
send it over TCP.  The built message and the target address are returned
so that the transmitted frame can be reasoned about. -/
def remove_dns_record (w : DnsWorld) (h : Handler) (domain txtvalue : String) :
    Except PyExc (UpdateMessage × String) × List NetEvent :=
  match determine_zone_and_nameserverip w h domain with
  | (.error e, t) => (.error e, t)
  | (.ok (zone, nameserverip), t) =>
    let update := updateNew zone h.keyring h.keyalgorithm
    let update := update.deleteOp domain TXT txtvalue
    (.ok (update, nameserverip), t ++ [.updateSend nameserverip])

/-- ChallengeHandler.add_dns_record with the caller-supplied ttl (the
dns_ttl field lives on the abstract base class outside this snapshot):
resolve zone and nameserver ip, build the signed update containing the one
add, and send it over TCP. -/
def add_dns_record (w : DnsWorld) (h : Handler) (ttl : Nat) (domain txtvalue : String) :
    Except PyExc (UpdateMessage × String) × List NetEvent :=
  match determine_zone_and_nameserverip w h domain with
  | (.error e, t) => (.error e, t)
  | (.ok (zone, nameserverip), t) =>
    let update := updateNew zone h.keyring h.keyalgorithm
    let update := update.addOp domain ttl TXT txtvalue
    (.ok (update, nameserverip), t ++ [.updateSend nameserverip])

/-! ## verify_dns_record -/

/-- ChallengeHandler.verify_dns_record: when authoritative verification is
configured and not yet achieved, the zone and nameserver ip are resolved
(exceptions propagate) and the TXT value checked over TCP directly at the
authoritative address; a falsy check returns False at once, a truthy check
marks the instance verified.  In every other case, and after a successful
check, the inherited base verification is consulted. -/
def verify_dns_record (w : DnsWorld) (h : Handler) (domain txtvalue : String) :
    Except PyExc Bool × Handler × List NetEvent :=
  if h.nsupdate_verify && !h.nsupdate_verified then
    match determine_zone_and_nameserverip w h domain with
    | (.error e, t) => (.error e, h, t)
    | (.ok (_, nameserverip), t) =>
      let c := check_txt_record_value w domain txtvalue nameserverip true
      if c.1.truthy then
        (.ok (w.baseVerify domain txtvalue), { h with nsupdate_verified := true },
         t ++ c.2 ++ [.baseVerify domain])
      else
        (.ok false, h, t ++ c.2)
  else
    (.ok (w.baseVerify domain txtvalue), h, [.baseVerify domain])

/-- A sequence of verify_dns_record calls on one instance, threading the
instance state and concatenating the traces (the retry loop the spec
ascribes to the surrounding ACME workflow). -/
def runVerifyCalls (w : DnsWorld) : Handler → List (String × String) → Handler × List NetEvent
  | h, [] => (h, [])
  | h, (d, v) :: rest =>
    let r := verify_dns_record w h d v
    let r2 := runVerifyCalls w r.2.1 rest
    (r2.1, r.2.2 ++ r2.2)

/-- The names at which SOA queries were issued, in trace order. -/
def queriedLabels (t : List NetEvent) : List Domain :=
  t.filterMap (fun e => match e with | .soaQ d _ => some d | _ => none)

/-! ## Concrete fixtures for witnesses and counterexamples -/

/-- A quiet world: every SOA query times out, every TXT query fails, no
file exists, nothing parses as an address, resolution fails, and the base
handler verification reports true. -/
def wBase : DnsWorld :=
  { defaultResolvers := ["127.0.0.53"],
    soaQuery := fun _ _ => .timeout,
    txtQuery := fun _ _ _ => .dnsError,
    readFile := fun _ => none,
    ipParse := fun _ => none,
    getaddrinfo := fun _ _ => .error (.valueError "resolution failed"),
    baseVerify := fun _ _ => true }

/-- A world in which only example.com. answers the SOA walk. -/
def w1 : DnsWorld :=
  { wBase with
    soaQuery := fun d _ =>
      if d == ["example", "com"]
      then .response 0 [[{ rdtype := 6, mname := "ns1.example.com. 2021010101" }]]
      else .timeout }

/-- A world with one system resolver in which no label ever answers. -/
def w5 : DnsWorld := { wBase with defaultResolvers := ["198.51.100.1"] }

/-- A world whose TXT answers carry one quoted token. -/
def w2 : DnsWorld :=
  { wBase with txtQuery := fun _ _ _ => .response [["\"expected-token\""]] }

/-- An already-verified handler instance. -/
def h3 : Handler :=
  { keyring := [(some "acme.", some "c2VjcmV0")], keyalgorithm := DEFAULT_KEY_ALGORITHM,
    nsupdate_server := none, nsupdate_verify := true, nsupdate_verified := true }

/-- A well-formed key file holding one block named update-key. -/
def tsigKeyFileContent : String :=
  "key \"update-key\" \x7b\n    algorithm hmac-sha256;\n    secret \"c2VjcmV0a2V5\";\n\x7d;\n"

/-- A world in which only /etc/nsupdate.key exists, with the block above. -/
def w4 : DnsWorld :=
  { wBase with readFile := fun p => if p == "/etc/nsupdate.key" then some tsigKeyFileContent else none }

/-- A well-formed key file whose block carries no algorithm entry. -/
def noAlgKeyFileContent : String :=
  "key \"acme-update\" \x7b\n    secret \"c2VjcmV0a2V5\";\n\x7d;\n"

/-- A world in which every file read yields the algorithm-less key file. -/
def w6 : DnsWorld := { wBase with readFile := fun _ => some noAlgKeyFileContent }

/-- An inline configuration without an nsupdate_keyalgorithm entry. -/
def cfg6 : Config := [("nsupdate_keyname", "acme-update"), ("nsupdate_keyvalue", "c2VjcmV0a2V5")]

/-- A world whose resolvers behave differently per address: the first
times out, the second raises a DNSException, the third answers SERVFAIL. -/
def w7 : DnsWorld :=
  { wBase with
    soaQuery := fun _ ns =>
      if ns == "10.0.0.1" then .timeout
      else if ns == "10.0.0.2" then .dnsError
      else .response 2 [] }

/-- A world with one literal address and one resolvable hostname. -/
def w8 : DnsWorld :=
  { wBase with
    ipParse := fun s => if s == "192.0.2.1" then some "192.0.2.1" else none,
    getaddrinfo := fun hst _ =>
      if hst == "ns1.example.com." then .ok ["203.0.113.5"] else .error (.valueError "gai") }

/-- A handler pinned to a literal update server address. -/
def h9 : Handler :=
  { keyring := [(some "acme.", some "c2VjcmV0")], keyalgorithm := DEFAULT_KEY_ALGORITHM,
    nsupdate_server := some "192.0.2.53", nsupdate_verify := true, nsupdate_verified := false }

/-- A world in which the pinned server parses as a literal and answers the
SOA query at the challenge owner name itself. -/
def w9 : DnsWorld :=
  { wBase with
    ipParse := fun s => if s == "192.0.2.53" then some "192.0.2.53" else none,
    soaQuery := fun d _ =>
      if d == ["_acme-challenge", "example", "com"]
      then .response 0 [[{ rdtype := 6, mname := "ns1.example.com." }]]
      else .timeout }

/-- An inline configuration whose nsupdate_verify value is the string True
(capitalised, hence not equal to the string true). -/
def cfg10 : Config :=
  [("nsupdate_keyname", "acme."), ("nsupdate_keyvalue", "c2VjcmV0"), ("nsupdate_verify", "True")]

/-- The handler cfg10 constructs. -/
def hndl10 : Handler :=
  { keyring := [(some "acme.", some "c2VjcmV0")], keyalgorithm := DEFAULT_KEY_ALGORITHM,
    nsupdate_server := none, nsupdate_verify := false, nsupdate_verified := false }

/-! ## Theorems -/

/-- C2: for every TXT query answered without a DNS-level exception, the
check is truthy exactly when some answer item, quote-stripped, equals the
expected value; and on every DNS-level exception the check returns False
(the embedding is total, so no exception ever escapes the check). -/
theorem check_txt_record_value_spec (w : DnsWorld) (domain txtvalue nameserverip : String)
    (useTcp : Bool) :
    (∀ answer, w.txtQuery domain nameserverip useTcp = .response answer →
      ((check_txt_record_value w domain txtvalue nameserverip useTcp).1.truthy = true ↔
        ∃ rrset ∈ answer, ∃ a ∈ rrset, stripQuotes a = txtvalue))
    ∧ (w.txtQuery domain nameserverip useTcp = .dnsError →
      (check_txt_record_value w domain txtvalue nameserverip useTcp).1 = .pyFalse) := by
  constructor
  · intro answer hq
    have hmain : (check_txt_record_value w domain txtvalue nameserverip useTcp).1.truthy =
        answer.any (fun rrset => rrset.any (fun a => stripQuotes a == txtvalue)) := by
      simp only [check_txt_record_value, hq]
      cases hb : answer.any (fun rrset => rrset.any (fun a => stripQuotes a == txtvalue)) <;>
        simp [hb, PyRet.truthy]
    rw [hmain]
    simp [List.any_eq_true, beq_iff_eq]
  · intro hq
    simp [check_txt_record_value, hq]

/-- C2 witness: a matching answer is truthy and an exception yields False. -/
theorem check_txt_record_value_spec_witness :
    (check_txt_record_value w2 "_acme-challenge.example.com." "expected-token" "192.0.2.53" true).1.truthy = true
    ∧ (check_txt_record_value wBase "_acme-challenge.example.com." "expected-token" "192.0.2.53" true).1 = .pyFalse := by
  constructor
  · exact ((check_txt_record_value_spec w2 "_acme-challenge.example.com." "expected-token"
      "192.0.2.53" true).1 [["\"expected-token\""]] rfl).mpr
      ⟨["\"expected-token\""], by decide, "\"expected-token\"", by decide, by decide⟩
  · exact (check_txt_record_value_spec wBase "_acme-challenge.example.com." "expected-token"
      "192.0.2.53" true).2 rfl

/-- Helper for C3: once the verified flag is set, any sequence of verify
calls keeps it set and never issues an authoritative query. -/
theorem runVerifyCalls_verified (w : DnsWorld) :
    ∀ (calls : List (String × String)) (h : Handler), h.nsupdate_verified = true →
      (runVerifyCalls w h calls).1.nsupdate_verified = true
      ∧ ∀ e ∈ (runVerifyCalls w h calls).2, e.isAuthQuery = false
  | [], h, hver => by simpa [runVerifyCalls] using hver
  | (d, v) :: rest, h, hver => by
    have hstep : verify_dns_record w h d v =
        (Except.ok (w.baseVerify d v), h, [NetEvent.baseVerify d]) := by
      simp [verify_dns_record, hver]
    have ih := runVerifyCalls_verified w rest h hver
    constructor
    · simpa [runVerifyCalls, hstep] using ih.1
    · intro e he
      simp only [runVerifyCalls, hstep] at he
      rcases List.mem_append.mp he with h1 | h2
      · rcases List.mem_singleton.mp h1 with rfl
        rfl
      · exact ih.2 e h2

/-- C3: on an instance whose verified flag is set, a verify call returns
the base verification result, leaves the state unchanged (so the flag
never returns to false) and issues only the base verification, no zone
resolution and no authoritative query; and any sequence of subsequent
calls keeps the flag set and issues no authoritative network query. -/
theorem verify_dns_record_monotonic_cached (w : DnsWorld) (h : Handler)
    (domain txtvalue : String) (calls : List (String × String))
    (hver : h.nsupdate_verified = true) :
    verify_dns_record w h domain txtvalue =
        (Except.ok (w.baseVerify domain txtvalue), h, [NetEvent.baseVerify domain])
    ∧ (runVerifyCalls w h calls).1.nsupdate_verified = true
    ∧ ∀ e ∈ (runVerifyCalls w h calls).2, e.isAuthQuery = false := by
  refine ⟨by simp [verify_dns_record, hver],
    (runVerifyCalls_verified w calls h hver).1,
    (runVerifyCalls_verified w calls h hver).2⟩

/-- C3 witness: the already-verified instance h3 answers through the base
handler only, stays verified over two further calls, and the combined
trace holds no authoritative query. -/
theorem verify_dns_record_monotonic_cached_witness :
    verify_dns_record wBase h3 "_acme-challenge.example.org." "tok" =
        (Except.ok true, h3, [NetEvent.baseVerify "_acme-challenge.example.org."])
    ∧ (runVerifyCalls wBase h3 [("a.example.", "x"), ("b.example.", "y")]).1.nsupdate_verified = true := by
  have hthm := verify_dns_record_monotonic_cached wBase h3 "_acme-challenge.example.org." "tok"
    [("a.example.", "x"), ("b.example.", "y")] rfl
  exact ⟨hthm.1.trans (by rfl), hthm.2.1⟩

/-- Helper for C4: the keyfile-open message and the decipher message give
distinct exceptions whatever the file path. -/
theorem keyfileOpenError_ne_decipherError (f : String) : keyfileOpenError f ≠ decipherError := by
  intro hcontra
  have h1 : ("A problem was encountered opening your keyfile, " ++ f ++ ".") =
      "Unable to decipher the keyname and secret from your keyfile." :=
    PyExc.exception.inj hcontra
  have h2 : ("A problem was encountered opening your keyfile, " ++ f ++ ".").data.head? =
      ("Unable to decipher the keyname and secret from your keyfile." : String).data.head? := by
    rw [h1]
  have h3 : ("A problem was encountered opening your keyfile, " ++ f ++ ".").data.head? =
      some 'A' := by
    cases f with
    | mk fdata => rfl
  rw [h3] at h2
  simp at h2

/-- C4: an unopenable key file yields the keyfile Exception; a readable
file in which the requested key name matches no block yields the decipher
Exception (so another block is never used); and the two failures are
distinct from each other and from a raw IOError. -/
theorem read_tsigkey_failure_modes (w : DnsWorld) (f : String) (n : String) (hn : ¬ n = "") :
    (w.readFile f = none → read_tsigkey w f (some n) = .error (keyfileOpenError f))
    ∧ (∀ content, w.readFile f = some content → reSearchKeyBlock n content = none →
        read_tsigkey w f (some n) = .error decipherError)
    ∧ keyfileOpenError f ≠ decipherError
    ∧ (∀ m, keyfileOpenError f ≠ PyExc.ioError m)
    ∧ (∀ m, decipherError ≠ PyExc.ioError m) := by
  have ht : pyTruthyOptStr (some n) = true := by
    simp [pyTruthyOptStr, hn]
  refine ⟨?_, ?_, keyfileOpenError_ne_decipherError f, ?_, ?_⟩
  · intro hnone
    simp [read_tsigkey, hnone]
  · intro content hc hblock
    simp [read_tsigkey, hc, ht, hblock]
  · intro m hcontra
    exact PyExc.noConfusion hcontra
  · intro m hcontra
    exact PyExc.noConfusion hcontra

/-- C4 witness: a missing file and a present file queried with the key
name other (which matches no block) fail with the two distinct
Exceptions. -/
theorem read_tsigkey_failure_modes_witness :
    read_tsigkey w4 "/etc/missing.key" (some "other") = .error (keyfileOpenError "/etc/missing.key")
    ∧ read_tsigkey w4 "/etc/nsupdate.key" (some "other") = .error decipherError
    ∧ keyfileOpenError "/etc/missing.key" ≠ decipherError := by
  have hthm := read_tsigkey_failure_modes w4 "/etc/missing.key" "other" (by decide)
  have hthm2 := read_tsigkey_failure_modes w4 "/etc/nsupdate.key" "other" (by decide)
  exact ⟨hthm.1 rfl, hthm2.2.1 tsigKeyFileContent rfl (by decide), hthm.2.2.1⟩

/-- C6: on a well-formed key file whose block merely lacks an algorithm
entry, _read_tsigkey raises the decipher Exception instead of defaulting
(the name and the secret are extractable, only the algorithm pattern
fails, and the defaulting branch sits after the raising group call);
while the inline configuration path without an algorithm entry does
default to HMAC-MD5.SIG-ALG.REG.INT. -/
theorem read_tsigkey_missing_algorithm_bug :
    read_tsigkey w6 "/etc/acertmgr/nsupdate.key" none = .error decipherError
    ∧ reSearchKeyName noAlgKeyFileContent = some "acme-update"
    ∧ reSearchSecret ((reSearchKeyBlock "acme-update" noAlgKeyFileContent).getD "") =
        some "c2VjcmV0a2V5"
    ∧ reSearchAlgorithm ((reSearchKeyBlock "acme-update" noAlgKeyFileContent).getD "") = none
    ∧ (challengeHandlerInit w6 cfg6).map Handler.keyalgorithm = .ok DEFAULT_KEY_ALGORITHM := by
  exact ⟨rfl, rfl, rfl, rfl, rfl⟩

/-- C8: a server string whose stripped form matches one of the two literal
regexes and which ipaddress accepts is used directly with an empty trace
(zero resolution queries); a non-matching server name goes through
getaddrinfo and its first address is used; and a matching string rejected
by ipaddress also falls back to getaddrinfo. -/
theorem lookup_dns_server_fast_path (w : DnsWorld) (s : String) :
    (∀ ip, (regexIp4Match (pyStrip s) || regexIp6Match (pyStrip s)) = true →
      w.ipParse s = some ip → lookup_dns_server w s = (.ok ip, []))
    ∧ (∀ a rest, (regexIp4Match (pyStrip s) || regexIp6Match (pyStrip s)) = false →
      w.getaddrinfo s 53 = .ok (a :: rest) →
      lookup_dns_server w s = (.ok a, [NetEvent.addrinfo s]))
    ∧ (∀ a rest, (regexIp4Match (pyStrip s) || regexIp6Match (pyStrip s)) = true →
      w.ipParse s = none → w.getaddrinfo s 53 = .ok (a :: rest) →
      lookup_dns_server w s = (.ok a, [NetEvent.addrinfo s])) := by
  refine ⟨?_, ?_, ?_⟩
  · intro ip hre hip
    simp [lookup_dns_server, hre, hip]
  · intro a rest hre haddr
    simp [lookup_dns_server, hre, haddr]
  · intro a rest hre hip haddr
    simp [lookup_dns_server, hre, hip, haddr]

/-- C8 witness: the literal 192.0.2.1 is used directly with an empty
trace, and the hostname ns1.example.com. resolves through getaddrinfo to
its first address. -/
theorem lookup_dns_server_fast_path_witness :
    lookup_dns_server w8 "192.0.2.1" = (.ok "192.0.2.1", [])
    ∧ lookup_dns_server w8 "ns1.example.com." =
        (.ok "203.0.113.5", [NetEvent.addrinfo "ns1.example.com."]) := by
  exact ⟨(lookup_dns_server_fast_path w8 "192.0.2.1").1 "192.0.2.1" (by decide) rfl,
    (lookup_dns_server_fast_path w8 "ns1.example.com.").2.1 "203.0.113.5" [] (by decide) rfl⟩

/-- C9: when zone resolution succeeds, the retract message holds exactly
one action, the record-specific delete of (owner, TXT, value); and under
the modelled server semantics such a message leaves every other TXT
record, including other values at the same owner, untouched. -/
theorem remove_dns_record_frame (w : DnsWorld) (h : Handler)
    (domain txtvalue zone nsip : String) (t : List NetEvent)
    (hdet : determine_zone_and_nameserverip w h domain = (.ok (zone, nsip), t)) :
    (remove_dns_record w h domain txtvalue).1 =
        Except.ok ({ zone := zone, keyring := h.keyring, keyalgorithm := h.keyalgorithm,
                     ops := [UpdateOp.deleteRecord domain TXT txtvalue] }, nsip)
    ∧ ∀ (rs : List (String × String)) (owner value : String),
        ¬(owner = domain ∧ value = txtvalue) →
        ((owner, value) ∈ applyOps [UpdateOp.deleteRecord domain TXT txtvalue] rs ↔
          (owner, value) ∈ rs) := by
  constructor
  · simp [remove_dns_record, hdet, updateNew, UpdateMessage.deleteOp]
  · intro rs owner value hne
    have hp : (!((owner == domain) && (value == txtvalue))) = true := by
      by_cases h1 : owner = domain
      · by_cases h2 : value = txtvalue
        · exact absurd ⟨h1, h2⟩ hne
        · simp [h1, h2]
      · simp [h1]
    simp only [applyOps, List.foldl_cons, List.foldl_nil, applyOp, List.mem_filter]
    exact and_iff_left hp

/-- C9 witness: retracting the challenge record from the pinned-server
world produces exactly the one record-specific delete, and a neighbouring
TXT record at the same owner survives its application. -/
theorem remove_dns_record_frame_witness :
    (remove_dns_record w9 h9 "_acme-challenge.example.com." "tokval").1 =
        Except.ok ({ zone := "_acme-challenge.example.com.", keyring := h9.keyring,
                     keyalgorithm := h9.keyalgorithm,
                     ops := [UpdateOp.deleteRecord "_acme-challenge.example.com." TXT "tokval"] },
                   "192.0.2.53")
    ∧ (("_acme-challenge.example.com.", "other-tok") ∈
        applyOps [UpdateOp.deleteRecord "_acme-challenge.example.com." TXT "tokval"]
          [("_acme-challenge.example.com.", "tokval"), ("_acme-challenge.example.com.", "other-tok")] ↔
        ("_acme-challenge.example.com.", "other-tok") ∈
          ([("_acme-challenge.example.com.", "tokval"), ("_acme-challenge.example.com.", "other-tok")] :
            List (String × String))) := by
  have hthm := remove_dns_record_frame w9 h9 "_acme-challenge.example.com." "tokval"
    "_acme-challenge.example.com." "192.0.2.53"
    [NetEvent.soaQ ["_acme-challenge", "example", "com"] "192.0.2.53"] rfl
  exact ⟨hthm.1, hthm.2
    [("_acme-challenge.example.com.", "tokval"), ("_acme-challenge.example.com.", "other-tok")]
    "_acme-challenge.example.com." "other-tok" (by simp)⟩

/-- C10: a successfully constructed handler has its verify toggle on
exactly when the nsupdate_verify configuration value is absent or is the
exact string true; and with the toggle off a verify call resolves no zone,
issues no authoritative query, and returns just the base handler
verification. -/
theorem nsupdate_verify_toggle (w : DnsWorld) (config : Config) (h : Handler)
    (hinit : challengeHandlerInit w config = .ok h) :
    (h.nsupdate_verify = true ↔
      (cfgGet config "nsupdate_verify" = none ∨ cfgGet config "nsupdate_verify" = some "true"))
    ∧ (h.nsupdate_verify = false → ∀ domain txtvalue,
        verify_dns_record w h domain txtvalue =
          (Except.ok (w.baseVerify domain txtvalue), h, [NetEvent.baseVerify domain])) := by
  have hv : h.nsupdate_verify = (((cfgGet config "nsupdate_verify").getD "true") == "true") := by
    cases hk : initKeyMaterial w config with
    | error e => simp [challengeHandlerInit, hk] at hinit
    | ok p =>
      have := hinit
      simp [challengeHandlerInit, hk] at this
      rw [← this]
  constructor
  · rw [hv]
    cases hcfg : cfgGet config "nsupdate_verify" with
    | none => simp
    | some v =>
      simp only [Option.getD_some, beq_iff_eq]
      constructor
      · intro hveq
        exact Or.inr (by rw [hveq])
      · intro hor
        rcases hor with habs | hsome
        · exact Option.noConfusion habs
        · exact Option.some.inj hsome
  · intro hoff domain txtvalue
    simp [verify_dns_record, hoff]

/-- C10 witness: the capitalised string True turns the toggle off and the
verify call reduces to the base verification with no authoritative
query. -/
theorem nsupdate_verify_toggle_witness :
    hndl10.nsupdate_verify = false
    ∧ verify_dns_record wBase hndl10 "_acme-challenge.example.net." "tok" =
        (Except.ok true, hndl10, [NetEvent.baseVerify "_acme-challenge.example.net."]) := by
  have hthm := nsupdate_verify_toggle wBase cfg10 hndl10 rfl
  exact ⟨rfl, (hthm.2 rfl "_acme-challenge.example.net." "tok").trans (by rfl)⟩

/-- Helper: with a single nameserver, one label of the walk reduces to the
outcome of that one query, always tracing exactly one event. -/
theorem soaTryNS_single (w : DnsWorld) (d : Domain) (ns : String) :
    soaTryNS w d [ns] =
      ((soaAnswerItem (w.soaQuery d ns)).map (fun item => (domainToText d, firstToken item.mname)),
       [NetEvent.soaQ d ns]) := by
  cases hq : w.soaQuery d ns with
  | timeout => simp [soaTryNS, soaAnswerItem, hq]
  | dnsError => simp [soaTryNS, soaAnswerItem, hq]
  | response rcode answer =>
    by_cases hrc : (rcode == NOERROR) = true
    · cases hfind : findSoaItem answer with
      | none => simp [soaTryNS, soaAnswerItem, hq, hrc, hfind]
      | some item => simp [soaTryNS, soaAnswerItem, hq, hrc, hfind]
    · simp [soaTryNS, soaAnswerItem, hq, hrc]

/-- Helper: the first element of a mapped range, split off. -/
theorem map_range_shift {α : Type} (f : Nat → α) (n : Nat) :
    (List.range (n + 1)).map f = f 0 :: (List.range n).map (fun i => f (i + 1)) := by
  rw [List.range_succ_eq_map, List.map_cons, List.map_map]
  rfl

/-- Helper: the single-resolver walk over failing prefixes reaches the
answering ancestor, returning its zone text and mname token and tracing
the descending labels in order. -/
theorem getSoaLoop_walk_aux (w : DnsWorld) (ns0 : String) (anc : List String) (it : RRItem)
    (hanc : 2 ≤ anc.length) (hans : soaAnswerItem (w.soaQuery anc ns0) = some it) :
    ∀ pre : List String,
      (∀ i, i < pre.length → soaAnswerItem (w.soaQuery ((pre ++ anc).drop i) ns0) = none) →
      getSoaLoop w [ns0] (pre ++ anc) =
        (Except.ok (domainToText anc, firstToken it.mname),
         (List.range (pre.length + 1)).map (fun i => NetEvent.soaQ ((pre ++ anc).drop i) ns0)) := by
  obtain ⟨a, b, rest, rfl⟩ : ∃ a b rest, anc = a :: b :: rest := by
    cases anc with
    | nil => simp at hanc
    | cons a t =>
      cases t with
      | nil => simp at hanc
      | cons b rest => exact ⟨a, b, rest, rfl⟩
  intro pre
  induction pre with
  | nil =>
    intro _
    have hstep := soaTryNS_single w (a :: b :: rest) ns0
    rw [hans] at hstep
    simp only [List.nil_append, List.length_nil, Nat.zero_add]
    have hr : (List.range 1).map (fun i => NetEvent.soaQ (List.drop i (a :: b :: rest)) ns0) =
        [NetEvent.soaQ (a :: b :: rest) ns0] := rfl
    rw [hr]
    simp [getSoaLoop, hstep]
  | cons p ps ih =>
    intro hfail
    have h0 : soaAnswerItem (w.soaQuery (p :: (ps ++ (a :: b :: rest))) ns0) = none := by
      have h := hfail 0 (by simp)
      simpa using h
    have hsub : ∀ i, i < ps.length →
        soaAnswerItem (w.soaQuery ((ps ++ (a :: b :: rest)).drop i) ns0) = none := by
      intro i hi
      have h := hfail (i + 1) (by simpa using Nat.succ_lt_succ hi)
      simpa using h
    have ihh := ih hsub
    have hstep := soaTryNS_single w (p :: (ps ++ (a :: b :: rest))) ns0
    rw [h0] at hstep
    have hloop : getSoaLoop w [ns0] ((p :: ps) ++ (a :: b :: rest)) =
        ((getSoaLoop w [ns0] (ps ++ (a :: b :: rest))).1,
         NetEvent.soaQ (p :: (ps ++ (a :: b :: rest))) ns0 ::
           (getSoaLoop w [ns0] (ps ++ (a :: b :: rest))).2) := by
      simp [getSoaLoop, hstep]
    rw [hloop, ihh]
    refine Prod.ext rfl ?_
    conv_rhs => rw [map_range_shift]
    rfl

/-- C1: with one configured resolver, for a domain that factors as a
nonempty prefix before an ancestor of at least two labels, where every
more-specific label fails to yield a NOERROR SOA answer and the ancestor
yields one, _get_soa (in both its default-resolver and explicit-server
modes) returns the ancestor text as the zone together with the first
whitespace token of the answering mname, and its trace is exactly the SOA
queries at every more-specific label in descending order followed by the
query at the answering ancestor. -/
theorem get_soa_zone_walk (w : DnsWorld) (s : String) (ns0 : String)
    (pre anc : List String) (it : RRItem)
    (hres : w.defaultResolvers = [ns0])
    (hdom : domainFromText s = pre ++ anc)
    (_hpre : pre ≠ [])
    (hanc : 2 ≤ anc.length)
    (hfail : ∀ i, i < pre.length → soaAnswerItem (w.soaQuery ((pre ++ anc).drop i) ns0) = none)
    (hans : soaAnswerItem (w.soaQuery anc ns0) = some it) :
    get_soa w s none =
      (Except.ok (domainToText anc, firstToken it.mname),
       (List.range (pre.length + 1)).map (fun i => NetEvent.soaQ ((pre ++ anc).drop i) ns0))
    ∧ get_soa w s (some ns0) =
      (Except.ok (domainToText anc, firstToken it.mname),
       (List.range (pre.length + 1)).map (fun i => NetEvent.soaQ ((pre ++ anc).drop i) ns0)) := by
  have hmain := getSoaLoop_walk_aux w ns0 anc it hanc hans pre hfail
  constructor
  · simp only [get_soa, hres, hdom]
    exact hmain
  · simp only [get_soa, hdom]
    exact hmain

/-- C1 witness: with only example.com. answering, the walk over
a.b.example.com. returns zone example.com. with nameserver
ns1.example.com. after querying the two more-specific labels first, in
descending order. -/
theorem get_soa_zone_walk_witness :
    get_soa w1 "a.b.example.com." none =
      (Except.ok ("example.com.", "ns1.example.com."),
       [NetEvent.soaQ ["a", "b", "example", "com"] "127.0.0.53",
        NetEvent.soaQ ["b", "example", "com"] "127.0.0.53",
        NetEvent.soaQ ["example", "com"] "127.0.0.53"]) := by
  have hthm := get_soa_zone_walk w1 "a.b.example.com." "127.0.0.53" ["a", "b"] ["example", "com"]
    { rdtype := 6, mname := "ns1.example.com. 2021010101" } rfl (by decide) (by decide) (by decide)
    (by decide) rfl
  exact hthm.1.trans (by rfl)

/-- Helper: when no nameserver of the list yields a NOERROR SOA answer at
a label, the label fails. -/
theorem soaTryNS_none_of_fail (w : DnsWorld) (d : Domain) :
    ∀ nss : List String, (∀ ns ∈ nss, soaAnswerItem (w.soaQuery d ns) = none) →
      (soaTryNS w d nss).1 = none
  | [], _ => rfl
  | ns :: rest, hfail => by
    have h0 : soaAnswerItem (w.soaQuery d ns) = none := hfail ns (by simp)
    have ih := soaTryNS_none_of_fail w d rest (fun n hn => hfail n (by simp [hn]))
    cases hq : w.soaQuery d ns with
    | timeout => simpa [soaTryNS, hq] using ih
    | dnsError => simp [soaTryNS, hq]
    | response rcode answer =>
      by_cases hrc : (rcode == NOERROR) = true
      · have hfind : findSoaItem answer = none := by
          simpa [soaAnswerItem, hq, hrc] using h0
        simpa [soaTryNS, hq, hrc, hfind] using ih
      · simp [soaTryNS, hq, hrc]

/-- Helper: the first nameserver of the list is always queried at a label. -/
theorem soaTryNS_trace_cons (w : DnsWorld) (d : Domain) (ns : String) (rest : List String) :
    ∃ t, (soaTryNS w d (ns :: rest)).2 = NetEvent.soaQ d ns :: t := by
  cases hq : w.soaQuery d ns with
  | timeout => exact ⟨(soaTryNS w d rest).2, by simp [soaTryNS, hq]⟩
  | dnsError => exact ⟨[], by simp [soaTryNS, hq]⟩
  | response rcode answer =>
    by_cases hrc : (rcode == NOERROR) = true
    · cases hfind : findSoaItem answer with
      | some item => exact ⟨[], by simp [soaTryNS, hq, hrc, hfind]⟩
      | none => exact ⟨(soaTryNS w d rest).2, by simp [soaTryNS, hq, hrc, hfind]⟩
    · exact ⟨[], by simp [soaTryNS, hq, hrc]⟩

/-- Helper: the first element of a flat-mapped range, split off. -/
theorem flatMap_range_shift {α : Type} (f : Nat → List α) (n : Nat) :
    (List.range (n + 1)).flatMap f = f 0 ++ (List.range n).flatMap (fun i => f (i + 1)) := by
  rw [List.range_succ_eq_map, List.flatMap_cons]
  congr 1
  rw [List.flatMap_map]

/-- Helper: every event the resolver loop of one label traces is an SOA
query at that same label, so its queried-label list is that label repeated
once per traced query. -/
theorem queriedLabels_soaTryNS (w : DnsWorld) (d : Domain) :
    ∀ nss : List String,
      queriedLabels (soaTryNS w d nss).2 = List.replicate (soaTryNS w d nss).2.length d
  | [] => rfl
  | ns :: rest => by
    have ih := queriedLabels_soaTryNS w d rest
    cases hq : w.soaQuery d ns with
    | timeout =>
      simp only [soaTryNS, hq]
      simp [queriedLabels, List.filterMap_cons, List.replicate_succ]
      simpa [queriedLabels] using ih
    | dnsError =>
      simp [soaTryNS, hq, queriedLabels, List.filterMap_cons]
    | response rcode answer =>
      by_cases hrc : (rcode == NOERROR) = true
      · cases hfind : findSoaItem answer with
        | some item =>
          simp [soaTryNS, hq, hrc, hfind, queriedLabels, List.filterMap_cons]
        | none =>
          simp only [soaTryNS, hq, hrc, if_true, hfind]
          simp [queriedLabels, List.filterMap_cons, List.replicate_succ]
          simpa [queriedLabels] using ih
      · simp [soaTryNS, hq, hrc, queriedLabels, List.filterMap_cons]

/-- Helper: a nonempty resolver list always traces at least one query at
a label. -/
theorem soaTryNS_trace_length_pos (w : DnsWorld) (d : Domain) (ns : String) (rest : List String) :
    1 ≤ (soaTryNS w d (ns :: rest)).2.length := by
  obtain ⟨t, ht⟩ := soaTryNS_trace_cons w d ns rest
  rw [ht]
  simp

/-- Helper for C5: when every label with at least two labels fails for
every configured resolver, the walk raises the not-found Exception naming
the final single-label name, the first resolver was queried at every
label having at least two labels, and the queried labels are exactly the
suffixes of at least two labels in descending order, each repeated once
per resolver tried there. -/
theorem getSoaLoop_exhaust_aux (w : DnsWorld) (ns0 : String) (rest0 : List String) :
    ∀ d : Domain, d ≠ [] →
      (∀ i, i + 1 < d.length → ∀ ns ∈ ns0 :: rest0, soaAnswerItem (w.soaQuery (d.drop i) ns) = none) →
      (getSoaLoop w (ns0 :: rest0) d).1 =
          Except.error (.exception ("Could not find Zone SOA for \"" ++
            domainToText (d.drop (d.length - 1)) ++ "\""))
      ∧ (∀ i, i + 1 < d.length →
          NetEvent.soaQ (d.drop i) ns0 ∈ (getSoaLoop w (ns0 :: rest0) d).2)
      ∧ queriedLabels (getSoaLoop w (ns0 :: rest0) d).2 =
          (List.range (d.length - 1)).flatMap
            (fun i => List.replicate ((soaTryNS w (d.drop i) (ns0 :: rest0)).2.length) (d.drop i))
  | [], hd, _ => absurd rfl hd
  | [l], _, _ => by
    refine ⟨by simp [getSoaLoop], ?_, ?_⟩
    · intro i hi
      simp at hi
    · simp [getSoaLoop, queriedLabels]
  | l :: m :: r, _, hfail => by
    have hall : ∀ ns ∈ ns0 :: rest0, soaAnswerItem (w.soaQuery (l :: m :: r) ns) = none := by
      intro ns hns
      have h := hfail 0 (by simp) ns hns
      simpa using h
    have hnone : (soaTryNS w (l :: m :: r) (ns0 :: rest0)).1 = none :=
      soaTryNS_none_of_fail w (l :: m :: r) (ns0 :: rest0) hall
    obtain ⟨t, ht⟩ : ∃ t, soaTryNS w (l :: m :: r) (ns0 :: rest0) = (none, t) := by
      refine ⟨(soaTryNS w (l :: m :: r) (ns0 :: rest0)).2, ?_⟩
      rw [← hnone]
    have hloop : getSoaLoop w (ns0 :: rest0) (l :: m :: r) =
        ((getSoaLoop w (ns0 :: rest0) (m :: r)).1,
         t ++ (getSoaLoop w (ns0 :: rest0) (m :: r)).2) := by
      simp [getSoaLoop, ht]
    have ihh := getSoaLoop_exhaust_aux w ns0 rest0 (m :: r) (by simp) (by
      intro i hi ns hns
      have h := hfail (i + 1) (by simpa using Nat.succ_lt_succ hi) ns hns
      simpa using h)
    refine ⟨?_, ?_, ?_⟩
    · rw [hloop, ihh.1]
      have hdrop : (m :: r).drop ((m :: r).length - 1) =
          (l :: m :: r).drop ((l :: m :: r).length - 1) := by
        simp [List.length_cons, List.drop_succ_cons]
      rw [hdrop]
    · intro i hi
      rw [hloop]
      cases i with
      | zero =>
        obtain ⟨t', ht'⟩ := soaTryNS_trace_cons w (l :: m :: r) ns0 rest0
        rw [ht] at ht'
        have hteq : t = NetEvent.soaQ (l :: m :: r) ns0 :: t' := ht'
        simp [hteq]
      | succ j =>
        have hj : j + 1 < (m :: r).length := by
          simpa using Nat.lt_of_succ_lt_succ hi
        have hmem := ihh.2.1 j hj
        have hdropped : (l :: m :: r).drop (j + 1) = (m :: r).drop j := rfl
        rw [hdropped]
        exact List.mem_append.mpr (Or.inr hmem)
    · rw [hloop]
      have ht2 : (soaTryNS w (l :: m :: r) (ns0 :: rest0)).2 = t := by rw [ht]
      rw [← ht2]
      have happ : queriedLabels ((soaTryNS w (l :: m :: r) (ns0 :: rest0)).2 ++
          (getSoaLoop w (ns0 :: rest0) (m :: r)).2) =
          queriedLabels (soaTryNS w (l :: m :: r) (ns0 :: rest0)).2 ++
            queriedLabels (getSoaLoop w (ns0 :: rest0) (m :: r)).2 := by
        simp [queriedLabels, List.filterMap_append]
      rw [happ, queriedLabels_soaTryNS w (l :: m :: r) (ns0 :: rest0), ihh.2.2]
      have hlen : (l :: m :: r).length - 1 = ((m :: r).length - 1) + 1 := by
        simp
      rw [hlen]
      conv_rhs => rw [flatMap_range_shift]
      rfl

/-- C5 (amended): when no label yields a NOERROR SOA answer, the walk
raises the not-found Exception once only the single top-level label
remains; its queried labels are exactly the suffixes of the input that
still have at least two labels, in descending order (each repeated once
per resolver tried there, at least once through the first configured
resolver); and the top-level label itself and the root are never
queried. -/
theorem get_soa_exhaustion (w : DnsWorld) (s : String) (d : Domain)
    (ns0 : String) (rest0 : List String)
    (hres : w.defaultResolvers = ns0 :: rest0)
    (hdom : domainFromText s = d) (hd : d ≠ [])
    (hfail : ∀ i, i + 1 < d.length → ∀ ns ∈ w.defaultResolvers,
      soaAnswerItem (w.soaQuery (d.drop i) ns) = none) :
    (get_soa w s none).1 =
        Except.error (.exception ("Could not find Zone SOA for \"" ++
          domainToText (d.drop (d.length - 1)) ++ "\""))
    ∧ (∀ i, i + 1 < d.length →
        NetEvent.soaQ (d.drop i) ns0 ∈ (get_soa w s none).2)
    ∧ queriedLabels (get_soa w s none).2 =
        (List.range (d.length - 1)).flatMap
          (fun i => List.replicate ((soaTryNS w (d.drop i) (ns0 :: rest0)).2.length) (d.drop i))
    ∧ (∀ i, i + 1 < d.length → 1 ≤ (soaTryNS w (d.drop i) (ns0 :: rest0)).2.length)
    ∧ (∀ q ∈ queriedLabels (get_soa w s none).2, 2 ≤ q.length)
    ∧ d.drop (d.length - 1) ∉ queriedLabels (get_soa w s none).2
    ∧ ([] : Domain) ∉ queriedLabels (get_soa w s none).2 := by
  have hfail2 : ∀ i, i + 1 < d.length → ∀ ns ∈ ns0 :: rest0,
      soaAnswerItem (w.soaQuery (d.drop i) ns) = none := by
    intro i hi ns hns
    exact hfail i hi ns (by rw [hres]; exact hns)
  have hget : get_soa w s none = getSoaLoop w (ns0 :: rest0) d := by
    simp [get_soa, hres, hdom]
  rw [hget]
  have hmain := getSoaLoop_exhaust_aux w ns0 rest0 d hd hfail2
  have hdlen : 1 ≤ d.length := by
    cases d with
    | nil => exact absurd rfl hd
    | cons x xs => simp
  have hlen2 : ∀ q ∈ queriedLabels (getSoaLoop w (ns0 :: rest0) d).2, 2 ≤ q.length := by
    intro q hq
    rw [hmain.2.2, List.mem_flatMap] at hq
    obtain ⟨i, hi, hq2⟩ := hq
    rw [List.mem_range] at hi
    have hqe := List.eq_of_mem_replicate hq2
    subst hqe
    rw [List.length_drop]
    omega
  refine ⟨hmain.1, hmain.2.1, hmain.2.2, ?_, hlen2, ?_, ?_⟩
  · intro i _
    exact soaTryNS_trace_length_pos w (d.drop i) ns0 rest0
  · intro hmem
    have h2 := hlen2 _ hmem
    rw [List.length_drop] at h2
    omega
  · intro hmem
    have h2 := hlen2 _ hmem
    simp at h2

/-- C5 witness: an exhausted three-label walk raises the not-found
Exception naming com., its queried labels are exactly the two suffixes of
at least two labels in descending order, and neither the top-level com.
nor the root was ever queried. -/
theorem get_soa_exhaustion_witness :
    (get_soa w5 "a.b.com." none).1 =
        Except.error (.exception "Could not find Zone SOA for \"com.\"")
    ∧ NetEvent.soaQ ["a", "b", "com"] "198.51.100.1" ∈ (get_soa w5 "a.b.com." none).2
    ∧ queriedLabels (get_soa w5 "a.b.com." none).2 = [["a", "b", "com"], ["b", "com"]]
    ∧ ["com"] ∉ queriedLabels (get_soa w5 "a.b.com." none).2
    ∧ ([] : Domain) ∉ queriedLabels (get_soa w5 "a.b.com." none).2 := by
  have hthm := get_soa_exhaustion w5 "a.b.com." ["a", "b", "com"] "198.51.100.1" [] rfl
    (by decide) (by decide) (fun i hi ns hns => rfl)
  exact ⟨hthm.1.trans (by rfl), hthm.2.1 0 (by decide), hthm.2.2.1.trans (by rfl),
    hthm.2.2.2.2.2.1, hthm.2.2.2.2.2.2⟩

/-- C5 counterexample to the claim as stated: with no label answering,
the walk over a.com. raises the not-found Exception but issues its only
SOA query at a.com. itself; the ancestor label com. is never queried,
although it is a proper ancestor of the input domain. -/
theorem get_soa_exhaustion_counterexample :
    (get_soa w5 "a.com." none).1 =
        Except.error (.exception "Could not find Zone SOA for \"com.\"")
    ∧ queriedLabels (get_soa w5 "a.com." none).2 = [["a", "com"]]
    ∧ (["com"] <:+ ["a", "com"] ∧ ["com"] ≠ ["a", "com"])
    ∧ ["com"] ∉ queriedLabels (get_soa w5 "a.com." none).2 := by
  exact ⟨rfl, rfl, ⟨⟨["a"], rfl⟩, by decide⟩, by decide⟩

/-- C7: at a label, a timeout of the first resolver makes the walk try
the remaining resolvers at the same label (tracing the timed-out query
first); any other DNSException, and any response with a non-NOERROR
rcode, ends the label after that single query; and a failed label makes
the loop ascend to the parent label, appending its trace. -/
theorem soa_walk_resolver_fallback (w : DnsWorld) (d : Domain) (ns : String) (more : List String) :
    (w.soaQuery d ns = .timeout →
      soaTryNS w d (ns :: more) =
        ((soaTryNS w d more).1, NetEvent.soaQ d ns :: (soaTryNS w d more).2))
    ∧ (w.soaQuery d ns = .dnsError →
      soaTryNS w d (ns :: more) = (none, [NetEvent.soaQ d ns]))
    ∧ (∀ rcode answer, w.soaQuery d ns = .response rcode answer → ¬ rcode = NOERROR →
      soaTryNS w d (ns :: more) = (none, [NetEvent.soaQ d ns]))
    ∧ (∀ l ls, ls ≠ [] → (soaTryNS w (l :: ls) (ns :: more)).1 = none →
      getSoaLoop w (ns :: more) (l :: ls) =
        ((getSoaLoop w (ns :: more) ls).1,
         (soaTryNS w (l :: ls) (ns :: more)).2 ++ (getSoaLoop w (ns :: more) ls).2)) := by
  refine ⟨?_, ?_, ?_, ?_⟩
  · intro hq
    simp [soaTryNS, hq]
  · intro hq
    simp [soaTryNS, hq]
  · intro rcode answer hq hrc
    have hrcb : (rcode == NOERROR) = false := by
      simpa [beq_eq_false_iff_ne] using hrc
    simp [soaTryNS, hq, hrcb]
  · intro l ls hls hnone
    obtain ⟨t, ht⟩ : ∃ t, soaTryNS w (l :: ls) (ns :: more) = (none, t) := by
      refine ⟨(soaTryNS w (l :: ls) (ns :: more)).2, ?_⟩
      rw [← hnone]
    cases ls with
    | nil => exact absurd rfl hls
    | cons m r =>
      simp [getSoaLoop, ht]

/-- C7 witness: a timeout at the first resolver falls through to the
second at the same label; a DNSException and a SERVFAIL response each end
the label at one query; and the failed label makes the loop ascend. -/
theorem soa_walk_resolver_fallback_witness :
    soaTryNS w7 ["a", "com"] ["10.0.0.1", "10.0.0.2"] =
      (none, [NetEvent.soaQ ["a", "com"] "10.0.0.1", NetEvent.soaQ ["a", "com"] "10.0.0.2"])
    ∧ soaTryNS w7 ["a", "com"] ["10.0.0.2", "10.0.0.1"] =
      (none, [NetEvent.soaQ ["a", "com"] "10.0.0.2"])
    ∧ soaTryNS w7 ["a", "com"] ["10.0.0.3", "10.0.0.1"] =
      (none, [NetEvent.soaQ ["a", "com"] "10.0.0.3"])
    ∧ getSoaLoop w7 ["10.0.0.2"] ["a", "com"] =
        ((getSoaLoop w7 ["10.0.0.2"] ["com"]).1,
         (soaTryNS w7 ["a", "com"] ["10.0.0.2"]).2 ++ (getSoaLoop w7 ["10.0.0.2"] ["com"]).2) := by
  refine ⟨?_, ?_, ?_, ?_⟩
  · exact ((soa_walk_resolver_fallback w7 ["a", "com"] "10.0.0.1" ["10.0.0.2"]).1 rfl).trans (by rfl)
  · exact (soa_walk_resolver_fallback w7 ["a", "com"] "10.0.0.2" ["10.0.0.1"]).2.1 rfl
  · exact (soa_walk_resolver_fallback w7 ["a", "com"] "10.0.0.3" ["10.0.0.1"]).2.2.1 2 [] rfl (by decide)
  · exact (soa_walk_resolver_fallback w7 ["a", "com"] "10.0.0.2" []).2.2.2 "a" ["com"] (by decide) rfl

end Nsupdate
